import Mathlib

/-!
A shallow embedding of the DocumentMCP server (`cli_project/mcp_server.py`):
an in-memory store mapping document ids to content strings, with the four
operations (read, edit, list, get-by-id) and the two prompt generators.
Strings are modelled by Lean `String` (contents) and `List Char` (the
character-level scans of Python `in` and `str.replace`).
-/

namespace DocumentMCP

/-- Literal prefix match: whether `pat` matches at the head of `s`
(the elementary step of Python substring search). -/
def matchesAt : List Char → List Char → Bool
  | [], _ => true
  | _ :: _, [] => false
  | p :: ps, c :: cs => p == c && matchesAt ps cs

/-- Python `pat in s`: whether `pat` occurs as a contiguous substring of `s`,
by scanning every start position left to right. -/
def containsSub (pat : List Char) : List Char → Bool
  | [] => matchesAt pat []
  | c :: rest => matchesAt pat (c :: rest) || containsSub pat rest

/-- The left-to-right non-overlapping replacement scan of Python
`str.replace` for a nonempty pattern `old`: at each position, if `old`
matches, emit `new` and skip past the match, otherwise copy one character.
`fuel` bounds the number of scan steps; the length of the scanned list
suffices because every step consumes at least one character when `old` is
nonempty. -/
def replaceGo (old new : List Char) : Nat → List Char → List Char
  | _, [] => []
  | 0, s => s
  | fuel + 1, c :: rest =>
    if matchesAt old (c :: rest) then
      new ++ replaceGo old new fuel (List.drop (old.length - 1) rest)
    else
      c :: replaceGo old new fuel rest

/-- Python `str.replace` with an empty pattern inserts the replacement
before every character and once more at the end. -/
def interleaveSep (new : List Char) : List Char → List Char
  | [] => new
  | c :: rest => new ++ c :: interleaveSep new rest

/-- Python `s.replace(old, new)` on character lists. -/
def pyReplaceL (old new s : List Char) : List Char :=
  if old = [] then interleaveSep new s else replaceGo old new s.length s

/-- Python `content.replace(old_string, new_string)`. -/
def pyReplace (content old_string new_string : String) : String :=
  ⟨pyReplaceL old_string.data new_string.data content.data⟩

/-- The document store: a finite mapping from document id to content,
as an association list in insertion order (a Python dict). -/
abbrev Store := List (String × String)

/-- The seeded store `docs` of `mcp_server.py`. -/
def docs : Store :=
  [("deposition.md", "This deposition covers the testimony of Angela Smith, P.E."),
   ("report.pdf", "The report details the state of a 20m condenser tower."),
   ("financials.docx", "These financials outline the project's budget and expenditures."),
   ("outlook.pdf", "This document presents the projected future performance of the system."),
   ("plan.md", "The plan outlines the steps for the project's implementation."),
   ("spec.txt", "These specifications define the technical requirements for the equipment.")]

/-- Dictionary lookup `docs[doc_id]` (`none` models `doc_id not in docs`). -/
def findDoc : Store → String → Option String
  | [], _ => none
  | (k, v) :: rest, doc_id => if k = doc_id then some v else findDoc rest doc_id

/-- Dictionary assignment `docs[doc_id] = content`: rewrites the binding of
an existing key and never adds or removes a key. -/
def setDoc : Store → String → String → Store
  | [], _, _ => []
  | (k, v) :: rest, doc_id, content =>
    if k = doc_id then (k, content) :: setDoc rest doc_id content
    else (k, v) :: setDoc rest doc_id content

/-- The `ValueError` message raised when a document id is absent. -/
def notFoundMsg (doc_id : String) : String :=
  "Document '" ++ doc_id ++ "' not found"

/-- The `ValueError` message raised when `old_string` is absent from the
document's content. -/
def substrNotFoundMsg (old_string doc_id : String) : String :=
  "String '" ++ old_string ++ "' not found in document '" ++ doc_id ++ "'"

/-- The confirmation message returned by a successful edit. -/
def successMsg (old_string new_string doc_id : String) : String :=
  "Successfully replaced '" ++ old_string ++ "' with '" ++ new_string ++ "' in '" ++ doc_id ++ "'"

/-- Tool 1, `read_doc_contents`: return the content of a document by id, or
fail when the id is absent.  Its type shows it never touches the store. -/
def read_doc_contents (s : Store) (doc_id : String) : Except String String :=
  match findDoc s doc_id with
  | none => Except.error (notFoundMsg doc_id)
  | some content => Except.ok content

/-- Tool 2, `edit_document`: find and replace a string in a document.  The
result pairs the returned value (or raised error) with the store after the
call; the store is returned unchanged on either error. -/
def edit_document (s : Store) (doc_id old_string new_string : String) :
    Except String String × Store :=
  match findDoc s doc_id with
  | none => (Except.error (notFoundMsg doc_id), s)
  | some content =>
    if containsSub old_string.data content.data then
      (Except.ok (successMsg old_string new_string doc_id),
       setDoc s doc_id (pyReplace content old_string new_string))
    else
      (Except.error (substrNotFoundMsg old_string doc_id), s)

/-- Resource 1, `list_documents`: the list of all document ids. -/
def list_documents (s : Store) : List String := s.map Prod.fst

/-- Resource 2, `get_document`: return the content of a document by id; its
body is identical to `read_doc_contents`. -/
def get_document (s : Store) (doc_id : String) : Except String String :=
  match findDoc s doc_id with
  | none => Except.error (notFoundMsg doc_id)
  | some content => Except.ok content

/-- Prompt 1, `format`: the fixed instruction text naming `doc_id`. -/
def format (doc_id : String) : String :=
  "Please rewrite the document '" ++ doc_id ++ "' in proper markdown format.\n\nSteps:\n1. Use the read_doc_contents tool to fetch the current document content\n2. Reformat the content using proper markdown syntax (headers, lists, emphasis, etc.)\n3. Use the edit_document tool to replace the old content with the new markdown-formatted content\n4. Confirm the changes were successful\n\nMake sure to preserve all the original information while improving the formatting."

/-- Prompt 2, `summarize`: the fixed instruction text naming `doc_id`. -/
def summarize (doc_id : String) : String :=
  "Please provide a concise summary of the document '" ++ doc_id ++ "'.\n\nSteps:\n1. Use the read_doc_contents tool to fetch the document content\n2. Analyze the key points and main ideas\n3. Provide a brief, clear summary (2-3 sentences)\n\nFocus on the most important information and keep it concise."

/-- One remote call, as named in the exposed operation surface. -/
inductive Op
  | read (doc_id : String)
  | edit (doc_id old_string new_string : String)
  | list
  | get (doc_id : String)
  | format (doc_id : String)
  | summarize (doc_id : String)

/-- The store after one operation: `edit_document` is the only operation
that assigns to `docs`; read, get, list and the two prompts leave it
unchanged. -/
def applyOp (s : Store) : Op → Store
  | Op.edit doc_id old_string new_string => (edit_document s doc_id old_string new_string).2
  | _ => s

/-- The store after a finite sequence of operations. -/
def runOps (s : Store) (ops : List Op) : Store := ops.foldl applyOp s

/-! Helper lemmas about the substring scan. -/

/-- `matchesAt` decides that `pat` is a literal head of `s`. -/
theorem matchesAt_iff : ∀ (p s : List Char), matchesAt p s = true ↔ ∃ t, s = p ++ t
  | [], s => by simp [matchesAt]
  | a :: ps, [] => by simp [matchesAt]
  | a :: ps, c :: cs => by
    rw [matchesAt, Bool.and_eq_true, beq_iff_eq, matchesAt_iff ps cs]
    constructor
    · rintro ⟨rfl, t, rfl⟩
      exact ⟨t, rfl⟩
    · rintro ⟨t, ht⟩
      rw [List.cons_append] at ht
      injection ht with h1 h2
      exact ⟨h1.symm, t, h2⟩

/-- `containsSub` decides substring occurrence: the Python `in` test. -/
theorem containsSub_iff : ∀ (p s : List Char), containsSub p s = true ↔ ∃ u v, s = u ++ p ++ v
  | p, [] => by
    rw [containsSub, matchesAt_iff]
    constructor
    · rintro ⟨t, ht⟩
      exact ⟨[], t, ht⟩
    · rintro ⟨u, v, huv⟩
      rcases List.append_eq_nil.mp huv.symm with ⟨h1, hv⟩
      rcases List.append_eq_nil.mp h1 with ⟨hu, hp⟩
      exact ⟨[], by simp [hp]⟩
  | p, c :: rest => by
    rw [containsSub, Bool.or_eq_true, matchesAt_iff, containsSub_iff p rest]
    constructor
    · rintro (⟨t, ht⟩ | ⟨u, v, huv⟩)
      · exact ⟨[], t, by simpa using ht⟩
      · exact ⟨c :: u, v, by simp [huv]⟩
    · rintro ⟨u, v, huv⟩
      cases u with
      | nil => exact Or.inl ⟨v, by simpa using huv⟩
      | cons b u' =>
        simp only [List.cons_append] at huv
        injection huv with h1 h2
        exact Or.inr ⟨u', v, h2⟩

/-- A pattern occurs in any list that sandwiches it. -/
theorem containsSub_sandwich (p u v : List Char) : containsSub p (u ++ p ++ v) = true :=
  (containsSub_iff p _).mpr ⟨u, v, rfl⟩

/-- The empty pattern occurs in every list (Python: `"" in s` is `True`). -/
theorem containsSub_nil (l : List Char) : containsSub [] l = true := by
  induction l with
  | nil => rfl
  | cons c rest ih => simp [containsSub, matchesAt]

/-- A one-character pattern occurs exactly when the character is a member. -/
theorem containsSub_single (x : Char) (l : List Char) : containsSub [x] l = true ↔ x ∈ l := by
  induction l with
  | nil => simp [containsSub, matchesAt]
  | cons c rest ih => simp [containsSub, matchesAt, ih]

/-! Helper lemmas about the store. -/

/-- Assigning a present key makes the lookup return the assigned value. -/
theorem findDoc_setDoc_self : ∀ (s : Store) (doc_id v content : String),
    findDoc s doc_id = some content → findDoc (setDoc s doc_id v) doc_id = some v
  | [], _, _, _, h => by simp [findDoc] at h
  | (k, w) :: rest, doc_id, v, content, h => by
    by_cases hk : k = doc_id
    · simp [findDoc, setDoc, hk]
    · simp only [findDoc, setDoc, if_neg hk] at h ⊢
      exact findDoc_setDoc_self rest doc_id v content h

/-- Assignment never changes the key sequence. -/
theorem list_documents_setDoc : ∀ (s : Store) (doc_id v : String),
    list_documents (setDoc s doc_id v) = list_documents s
  | [], _, _ => rfl
  | (k, w) :: rest, doc_id, v => by
    have ih := list_documents_setDoc rest doc_id v
    simp only [list_documents] at ih
    by_cases hk : k = doc_id <;> simp [list_documents, setDoc, hk, ih]

/-- No operation changes the key sequence, whether it succeeds or fails. -/
theorem list_documents_applyOp (s : Store) (op : Op) :
    list_documents (applyOp s op) = list_documents s := by
  cases op with
  | read doc_id => rfl
  | list => rfl
  | get doc_id => rfl
  | format doc_id => rfl
  | summarize doc_id => rfl
  | edit doc_id old_string new_string =>
    simp only [applyOp, edit_document]
    cases h : findDoc s doc_id with
    | none => rfl
    | some content =>
      by_cases hc : containsSub old_string.data content.data
      · simp [hc, list_documents_setDoc]
      · simp [hc]

/-! Helper lemmas about the error and confirmation messages. -/

/-- The not-found message mentions the offending document id. -/
theorem notFoundMsg_mentions_doc (doc_id : String) :
    containsSub doc_id.data (notFoundMsg doc_id).data = true := by
  refine (containsSub_iff _ _).mpr ⟨"Document '".data, "' not found".data, ?_⟩
  simp [notFoundMsg, String.data_append]

/-- The substring-not-found message mentions the offending string. -/
theorem substrMsg_mentions_old (old_string doc_id : String) :
    containsSub old_string.data (substrNotFoundMsg old_string doc_id).data = true := by
  refine (containsSub_iff _ _).mpr
    ⟨"String '".data, ("' not found in document '" ++ doc_id ++ "'").data, ?_⟩
  simp [substrNotFoundMsg, String.data_append]

/-- The substring-not-found message mentions the document id. -/
theorem substrMsg_mentions_doc (old_string doc_id : String) :
    containsSub doc_id.data (substrNotFoundMsg old_string doc_id).data = true := by
  refine (containsSub_iff _ _).mpr
    ⟨("String '" ++ old_string ++ "' not found in document '").data, "'".data, ?_⟩
  simp [substrNotFoundMsg, String.data_append]

/-- The success message mentions the edited document id. -/
theorem successMsg_mentions_doc (old_string new_string doc_id : String) :
    containsSub doc_id.data (successMsg old_string new_string doc_id).data = true := by
  refine (containsSub_iff _ _).mpr
    ⟨("Successfully replaced '" ++ old_string ++ "' with '" ++ new_string ++ "' in '").data,
     "'".data, ?_⟩
  simp [successMsg, String.data_append]

/-! Helper lemmas about the replacement scan. -/

/-- For one-character patterns the scan is a pointwise map. -/
theorem replaceGo_single (o n : Char) : ∀ (fuel : Nat) (l : List Char), l.length ≤ fuel →
    replaceGo [o] [n] fuel l = l.map (fun x => if x = o then n else x)
  | fuel, [], _ => by cases fuel <;> simp [replaceGo]
  | 0, c :: rest, h => by simp at h
  | fuel + 1, c :: rest, h => by
    have hr : rest.length ≤ fuel := by simpa using h
    by_cases hc : c = o
    · simp [replaceGo, matchesAt, hc, replaceGo_single o n fuel rest hr]
    · simp [replaceGo, matchesAt, hc, Ne.symm hc, replaceGo_single o n fuel rest hr]

/-- Swapping a character in and back out is the identity when the new
character was not present. -/
theorem map_swap_back (o n : Char) : ∀ l : List Char, n ∉ l →
    (l.map (fun x => if x = o then n else x)).map (fun x => if x = n then o else x) = l
  | [], _ => rfl
  | c :: rest, h => by
    have hc : c ≠ n := fun hcn => h (hcn ▸ List.mem_cons_self c rest)
    have hrest := map_swap_back o n rest (fun hn => h (List.mem_cons_of_mem c hn))
    by_cases hco : c = o
    · simp [hco, hrest]
    · simp [hco, hc, hrest]

/-- Once the scan has matched the pattern at least once, the replacement
text occurs in the result. -/
theorem replaceGo_emits_new (old new : List Char) (hold : old ≠ []) :
    ∀ (fuel : Nat) (l : List Char), l.length ≤ fuel → containsSub old l = true →
      ∃ u v, replaceGo old new fuel l = u ++ new ++ v
  | fuel, [], _, hc => by
    rcases (containsSub_iff old []).mp hc with ⟨u, v, huv⟩
    rcases List.append_eq_nil.mp huv.symm with ⟨h1, hv⟩
    rcases List.append_eq_nil.mp h1 with ⟨hu, hp⟩
    exact absurd hp hold
  | 0, c :: rest, h, hc => by simp at h
  | fuel + 1, c :: rest, h, hc => by
    have hr : rest.length ≤ fuel := by simpa using h
    by_cases hm : matchesAt old (c :: rest) = true
    · exact ⟨[], replaceGo old new fuel (List.drop (old.length - 1) rest),
        by simp [replaceGo, hm]⟩
    · have hm' : matchesAt old (c :: rest) = false := by
        cases hmm : matchesAt old (c :: rest) with
        | false => rfl
        | true => exact absurd hmm hm
      have hrest : containsSub old rest = true := by
        simpa [containsSub, hm'] using hc
      rcases replaceGo_emits_new old new hold fuel rest hr hrest with ⟨u, v, huv⟩
      exact ⟨c :: u, v, by simp [replaceGo, hm', huv]⟩

/-! The claims. -/

/-- C1: for a stored document whose content contains `old_string`,
`edit_document` replaces all non-overlapping occurrences by the
left-to-right scan `pyReplace`, stores the result (so a subsequent read
returns it) and returns a success message naming the document. -/
theorem edit_replaces_all_occurrences (s : Store) (doc_id old_string new_string content : String)
    (hfind : findDoc s doc_id = some content)
    (hocc : containsSub old_string.data content.data = true) :
    edit_document s doc_id old_string new_string =
      (Except.ok (successMsg old_string new_string doc_id),
       setDoc s doc_id (pyReplace content old_string new_string)) ∧
    read_doc_contents (edit_document s doc_id old_string new_string).2 doc_id =
      Except.ok (pyReplace content old_string new_string) ∧
    containsSub doc_id.data (successMsg old_string new_string doc_id).data = true := by
  have h1 : edit_document s doc_id old_string new_string =
      (Except.ok (successMsg old_string new_string doc_id),
       setDoc s doc_id (pyReplace content old_string new_string)) := by
    unfold edit_document
    rw [hfind]
    simp [hocc]
  refine ⟨h1, ?_, successMsg_mentions_doc old_string new_string doc_id⟩
  rw [h1]
  unfold read_doc_contents
  rw [findDoc_setDoc_self s doc_id (pyReplace content old_string new_string) content hfind]

/-- C1 witness: the spec's scenario, `edit("plan.md", "implementation",
"rollout")` on the seeded store, after which reading `plan.md` returns the
expected sentence. -/
theorem edit_replaces_all_occurrences_witness :
    edit_document docs "plan.md" "implementation" "rollout" =
      (Except.ok (successMsg "implementation" "rollout" "plan.md"),
       setDoc docs "plan.md"
         (pyReplace "The plan outlines the steps for the project's implementation."
           "implementation" "rollout")) ∧
    read_doc_contents (edit_document docs "plan.md" "implementation" "rollout").2 "plan.md" =
      Except.ok "The plan outlines the steps for the project's rollout." := by
  have h := edit_replaces_all_occurrences docs "plan.md" "implementation" "rollout"
    "The plan outlines the steps for the project's implementation." (by decide) (by decide)
  exact ⟨h.1, h.2.1.trans (congrArg Except.ok (by decide))⟩

/-- C2: for a stored document whose content does not contain `old_string`,
`edit_document` fails with the substring-not-found error naming
`old_string` and `doc_id`, and the store after the call is exactly the
store before it. -/
theorem edit_substring_missing (s : Store) (doc_id old_string new_string content : String)
    (hfind : findDoc s doc_id = some content)
    (hocc : containsSub old_string.data content.data = false) :
    edit_document s doc_id old_string new_string =
      (Except.error (substrNotFoundMsg old_string doc_id), s) ∧
    containsSub old_string.data (substrNotFoundMsg old_string doc_id).data = true ∧
    containsSub doc_id.data (substrNotFoundMsg old_string doc_id).data = true := by
  refine ⟨?_, substrMsg_mentions_old old_string doc_id, substrMsg_mentions_doc old_string doc_id⟩
  unfold edit_document
  rw [hfind]
  simp [hocc]

/-- C2 witness: editing `plan.md` with an absent `old_string` fails and
leaves the seeded store untouched. -/
theorem edit_substring_missing_witness :
    edit_document docs "plan.md" "zebra" "lion" =
      (Except.error (substrNotFoundMsg "zebra" "plan.md"), docs) ∧
    containsSub "zebra".data (substrNotFoundMsg "zebra" "plan.md").data = true ∧
    containsSub "plan.md".data (substrNotFoundMsg "zebra" "plan.md").data = true :=
  edit_substring_missing docs "plan.md" "zebra" "lion"
    "The plan outlines the steps for the project's implementation." (by decide) (by decide)

/-- C7: before any edit, each of the six seeded ids reads back exactly its
seeded content. -/
theorem seeded_reads :
    read_doc_contents docs "deposition.md" =
      Except.ok "This deposition covers the testimony of Angela Smith, P.E." ∧
    read_doc_contents docs "report.pdf" =
      Except.ok "The report details the state of a 20m condenser tower." ∧
    read_doc_contents docs "financials.docx" =
      Except.ok "These financials outline the project's budget and expenditures." ∧
    read_doc_contents docs "outlook.pdf" =
      Except.ok "This document presents the projected future performance of the system." ∧
    read_doc_contents docs "plan.md" =
      Except.ok "The plan outlines the steps for the project's implementation." ∧
    read_doc_contents docs "spec.txt" =
      Except.ok "These specifications define the technical requirements for the equipment." :=
  ⟨rfl, rfl, rfl, rfl, rfl, rfl⟩

/-- C8: `get_document` is extensionally equal to `read_doc_contents` on
every store and every id. -/
theorem get_document_eq_read (s : Store) (doc_id : String) :
    get_document s doc_id = read_doc_contents s doc_id := by
  unfold get_document read_doc_contents
  rfl

/-- C4: after any finite sequence of operations (successful or failing),
`list_documents` still returns exactly the six seeded ids; being a total
function, it never fails. -/
theorem list_ids_invariant (ops : List Op) :
    list_documents (runOps docs ops) =
      ["deposition.md", "report.pdf", "financials.docx", "outlook.pdf", "plan.md", "spec.txt"] := by
  have key : ∀ (l : List Op) (s : Store), list_documents (runOps s l) = list_documents s := by
    intro l
    induction l with
    | nil => intro s; rfl
    | cons op rest ih =>
      intro s
      have step : runOps s (op :: rest) = runOps (applyOp s op) rest := rfl
      rw [step, ih (applyOp s op), list_documents_applyOp]
  rw [key ops docs]
  rfl

/-- C5: reading or getting an absent id fails with the not-found error
naming the id (with no store output at all, the operations being pure
functions of the store), and reading a present id returns its content. -/
theorem read_get_contract (s : Store) (doc_id : String) :
    (findDoc s doc_id = none →
      read_doc_contents s doc_id = Except.error (notFoundMsg doc_id) ∧
      get_document s doc_id = Except.error (notFoundMsg doc_id) ∧
      containsSub doc_id.data (notFoundMsg doc_id).data = true) ∧
    (∀ content, findDoc s doc_id = some content →
      read_doc_contents s doc_id = Except.ok content ∧
      get_document s doc_id = Except.ok content) := by
  constructor
  · intro h
    refine ⟨?_, ?_, notFoundMsg_mentions_doc doc_id⟩
    · unfold read_doc_contents
      rw [h]
    · unfold get_document
      rw [h]
  · intro content h
    constructor
    · unfold read_doc_contents
      rw [h]
    · unfold get_document
      rw [h]

/-- C9: the two prompt generators are deterministic total functions of
`doc_id` alone, never fail, mention the given id (present in the store or
not), and leave the store untouched. -/
theorem prompts_pure (s : Store) (doc_id : String) :
    format doc_id =
      "Please rewrite the document '" ++ doc_id ++ "' in proper markdown format.\n\nSteps:\n1. Use the read_doc_contents tool to fetch the current document content\n2. Reformat the content using proper markdown syntax (headers, lists, emphasis, etc.)\n3. Use the edit_document tool to replace the old content with the new markdown-formatted content\n4. Confirm the changes were successful\n\nMake sure to preserve all the original information while improving the formatting." ∧
    summarize doc_id =
      "Please provide a concise summary of the document '" ++ doc_id ++ "'.\n\nSteps:\n1. Use the read_doc_contents tool to fetch the document content\n2. Analyze the key points and main ideas\n3. Provide a brief, clear summary (2-3 sentences)\n\nFocus on the most important information and keep it concise." ∧
    containsSub doc_id.data (format doc_id).data = true ∧
    containsSub doc_id.data (summarize doc_id).data = true ∧
    applyOp s (Op.format doc_id) = s ∧
    applyOp s (Op.summarize doc_id) = s := by
  refine ⟨rfl, rfl, ?_, ?_, rfl, rfl⟩
  · refine (containsSub_iff _ _).mpr ⟨"Please rewrite the document '".data,
      "' in proper markdown format.\n\nSteps:\n1. Use the read_doc_contents tool to fetch the current document content\n2. Reformat the content using proper markdown syntax (headers, lists, emphasis, etc.)\n3. Use the edit_document tool to replace the old content with the new markdown-formatted content\n4. Confirm the changes were successful\n\nMake sure to preserve all the original information while improving the formatting.".data, ?_⟩
    unfold format
    rw [String.data_append, String.data_append]
  · refine (containsSub_iff _ _).mpr ⟨"Please provide a concise summary of the document '".data,
      "'.\n\nSteps:\n1. Use the read_doc_contents tool to fetch the document content\n2. Analyze the key points and main ideas\n3. Provide a brief, clear summary (2-3 sentences)\n\nFocus on the most important information and keep it concise.".data, ?_⟩
    unfold summarize
    rw [String.data_append, String.data_append]

/-- C10: an edit with the empty `old_string` never fails the substring
check (the empty string occurs in every content); it succeeds and stores
`new_string` interleaved at all positions of the old content, before every
character and once at the end. -/
theorem edit_empty_old (s : Store) (doc_id new_string content : String)
    (hfind : findDoc s doc_id = some content) :
    edit_document s doc_id "" new_string =
      (Except.ok (successMsg "" new_string doc_id),
       setDoc s doc_id ⟨interleaveSep new_string.data content.data⟩) ∧
    findDoc (edit_document s doc_id "" new_string).2 doc_id =
      some ⟨interleaveSep new_string.data content.data⟩ := by
  have hdata : ("" : String).data = [] := rfl
  have hrep : pyReplace content "" new_string = ⟨interleaveSep new_string.data content.data⟩ := by
    unfold pyReplace pyReplaceL
    rw [hdata]
    simp
  have h1 : edit_document s doc_id "" new_string =
      (Except.ok (successMsg "" new_string doc_id),
       setDoc s doc_id ⟨interleaveSep new_string.data content.data⟩) := by
    unfold edit_document
    rw [hfind, hdata]
    simp [containsSub_nil, hrep]
  refine ⟨h1, ?_⟩
  rw [h1]
  exact findDoc_setDoc_self s doc_id _ content hfind

/-- C10 witness: the empty-pattern edit on the seeded `report.pdf`. -/
theorem edit_empty_old_witness :
    edit_document docs "report.pdf" "" "-" =
      (Except.ok (successMsg "" "-" "report.pdf"),
       setDoc docs "report.pdf"
         ⟨interleaveSep "-".data "The report details the state of a 20m condenser tower.".data⟩) ∧
    findDoc (edit_document docs "report.pdf" "" "-").2 "report.pdf" =
      some ⟨interleaveSep "-".data "The report details the state of a 20m condenser tower.".data⟩ :=
  edit_empty_old docs "report.pdf" "-" "The report details the state of a 20m condenser tower."
    (by decide)

/-- For a one-character pattern, `pyReplaceL` is a pointwise map. -/
theorem pyReplaceL_single (o n : Char) (l : List Char) :
    pyReplaceL [o] [n] l = l.map (fun x => if x = o then n else x) := by
  unfold pyReplaceL
  rw [if_neg (List.cons_ne_nil o [])]
  exact replaceGo_single o n l.length l (le_refl _)

/-- For one-character strings, `pyReplace` is a pointwise character map. -/
theorem pyReplace_single (content : String) (o n : Char) :
    pyReplace content ⟨[o]⟩ ⟨[n]⟩ = ⟨content.data.map (fun x => if x = o then n else x)⟩ := by
  unfold pyReplace
  exact congrArg String.mk (pyReplaceL_single o n content.data)

/-- C3 counterexample: the round-trip claim fails as stated.  On the seeded
store, `edit("plan.md", "plan", "steps")` followed by
`edit("plan.md", "steps", "plan")` does not restore the original content:
the new string `steps` already occurred in the original, so the reverse
edit also rewrites that occurrence. -/
theorem edit_roundtrip_counterexample :
    findDoc docs "plan.md" = some "The plan outlines the steps for the project's implementation." ∧
    containsSub "plan".data
      "The plan outlines the steps for the project's implementation.".data = true ∧
    findDoc (edit_document (edit_document docs "plan.md" "plan" "steps").2
        "plan.md" "steps" "plan").2 "plan.md" =
      some "The plan outlines the plan for the project's implementation." ∧
    ("The plan outlines the plan for the project's implementation." : String) ≠
      "The plan outlines the steps for the project's implementation." :=
  ⟨by decide, by decide, by decide, by decide⟩

/-- C3 amended: the round-trip `edit(id, old, new)` then `edit(id, new,
old)` restores the content bit-for-bit when `old` and `new` are single
characters and `new` does not occur in the original content; without such
a restriction the round trip can fail, as when the replacement string
already occurs in the content. -/
theorem edit_roundtrip_single_char (s : Store) (doc_id : String) (o n : Char) (content : String)
    (hfind : findDoc s doc_id = some content)
    (hocc : containsSub [o] content.data = true)
    (hnew : containsSub [n] content.data = false) :
    findDoc (edit_document (edit_document s doc_id ⟨[o]⟩ ⟨[n]⟩).2 doc_id ⟨[n]⟩ ⟨[o]⟩).2 doc_id =
      some content := by
  have hoccS : containsSub (⟨[o]⟩ : String).data content.data = true := hocc
  have hrep1 : pyReplace content ⟨[o]⟩ ⟨[n]⟩ =
      ⟨content.data.map (fun x => if x = o then n else x)⟩ := pyReplace_single content o n
  have h1 : edit_document s doc_id ⟨[o]⟩ ⟨[n]⟩ =
      (Except.ok (successMsg ⟨[o]⟩ ⟨[n]⟩ doc_id),
       setDoc s doc_id ⟨content.data.map (fun x => if x = o then n else x)⟩) := by
    unfold edit_document
    rw [hfind]
    simp [hoccS, hrep1]
  have hfind1 : findDoc (setDoc s doc_id
        ⟨content.data.map (fun x => if x = o then n else x)⟩) doc_id =
      some ⟨content.data.map (fun x => if x = o then n else x)⟩ :=
    findDoc_setDoc_self s doc_id _ content hfind
  have hmem : o ∈ content.data := (containsSub_single o content.data).mp hocc
  have hn_not : n ∉ content.data := fun hmm => by
    simp [(containsSub_single n content.data).mpr hmm] at hnew
  have hocc2 : containsSub (⟨[n]⟩ : String).data
      (⟨content.data.map (fun x => if x = o then n else x)⟩ : String).data = true := by
    refine (containsSub_single n _).mpr ?_
    exact List.mem_map.mpr ⟨o, hmem, by simp⟩
  have hrep2 : pyReplace ⟨content.data.map (fun x => if x = o then n else x)⟩ ⟨[n]⟩ ⟨[o]⟩ =
      content := by
    rw [pyReplace_single]
    apply String.ext
    show (content.data.map (fun x => if x = o then n else x)).map
      (fun x => if x = n then o else x) = content.data
    exact map_swap_back o n content.data hn_not
  have h2 : edit_document (setDoc s doc_id
        ⟨content.data.map (fun x => if x = o then n else x)⟩) doc_id ⟨[n]⟩ ⟨[o]⟩ =
      (Except.ok (successMsg ⟨[n]⟩ ⟨[o]⟩ doc_id),
       setDoc (setDoc s doc_id ⟨content.data.map (fun x => if x = o then n else x)⟩)
         doc_id content) := by
    unfold edit_document
    rw [hfind1]
    simp [hocc2, hrep2]
  rw [h1]
  show findDoc (edit_document (setDoc s doc_id
      ⟨content.data.map (fun x => if x = o then n else x)⟩) doc_id ⟨[n]⟩ ⟨[o]⟩).2 doc_id =
    some content
  rw [h2]
  exact findDoc_setDoc_self _ doc_id content _ hfind1

/-- C3 amended witness: swapping `q` for `z` and back on the seeded
`spec.txt` restores the seeded content. -/
theorem edit_roundtrip_single_char_witness :
    findDoc (edit_document (edit_document docs "spec.txt" ⟨['q']⟩ ⟨['z']⟩).2
        "spec.txt" ⟨['z']⟩ ⟨['q']⟩).2 "spec.txt" =
      some "These specifications define the technical requirements for the equipment." :=
  edit_roundtrip_single_char docs "spec.txt" 'q' 'z'
    "These specifications define the technical requirements for the equipment."
    (by decide) (by decide) (by decide)

/-- C6 counterexample: the claim's "only way" direction fails.  Starting
from the seeded store, set `plan.md` to `abb` by a whole-content edit;
then `edit("plan.md", "ab", "a")` succeeds and leaves content `ab`, and
re-running the identical edit succeeds again although the replacement
string `a` does not contain `ab`: the replacement recombined with the
remaining text into a fresh occurrence. -/
theorem rerun_edit_counterexample :
    (edit_document (edit_document docs "plan.md"
        "The plan outlines the steps for the project's implementation." "abb").2
      "plan.md" "ab" "a").1 = Except.ok (successMsg "ab" "a" "plan.md") ∧
    findDoc (edit_document (edit_document docs "plan.md"
        "The plan outlines the steps for the project's implementation." "abb").2
      "plan.md" "ab" "a").2 "plan.md" = some "ab" ∧
    (edit_document (edit_document (edit_document docs "plan.md"
        "The plan outlines the steps for the project's implementation." "abb").2
      "plan.md" "ab" "a").2 "plan.md" "ab" "a").1 =
      Except.ok (successMsg "ab" "a" "plan.md") ∧
    containsSub "ab".data "a".data = false :=
  ⟨rfl, by decide, rfl, by decide⟩

/-- C6 amended: after a successful edit of a nonempty `old_string`,
re-running the identical edit fails with the substring-not-found error
whenever `old_string` no longer occurs in the updated content, and
`old_string` does still occur whenever `new_string` contains it;
containment in `new_string` is however only a sufficient condition for the
second call to succeed, not the only way. -/
theorem rerun_edit_amended (s : Store) (doc_id old_string new_string content : String)
    (hfind : findDoc s doc_id = some content)
    (hne : old_string.data ≠ [])
    (hocc : containsSub old_string.data content.data = true) :
    findDoc (edit_document s doc_id old_string new_string).2 doc_id =
      some (pyReplace content old_string new_string) ∧
    (containsSub old_string.data (pyReplace content old_string new_string).data = false →
      (edit_document (edit_document s doc_id old_string new_string).2
          doc_id old_string new_string).1 =
        Except.error (substrNotFoundMsg old_string doc_id)) ∧
    (containsSub old_string.data new_string.data = true →
      containsSub old_string.data (pyReplace content old_string new_string).data = true) := by
  have h1 : edit_document s doc_id old_string new_string =
      (Except.ok (successMsg old_string new_string doc_id),
       setDoc s doc_id (pyReplace content old_string new_string)) := by
    unfold edit_document
    rw [hfind]
    simp [hocc]
  have hfind1 : findDoc (setDoc s doc_id (pyReplace content old_string new_string)) doc_id =
      some (pyReplace content old_string new_string) :=
    findDoc_setDoc_self s doc_id _ content hfind
  refine ⟨by rw [h1]; exact hfind1, ?_, ?_⟩
  · intro habsent
    rw [h1]
    show (edit_document (setDoc s doc_id (pyReplace content old_string new_string))
        doc_id old_string new_string).1 = _
    unfold edit_document
    rw [hfind1]
    simp [habsent]
  · intro hin
    have hrep : (pyReplace content old_string new_string).data =
        replaceGo old_string.data new_string.data content.data.length content.data := by
      unfold pyReplace pyReplaceL
      simp [hne]
    rcases replaceGo_emits_new old_string.data new_string.data hne content.data.length
        content.data (le_refl _) hocc with ⟨u, v, huv⟩
    rcases (containsSub_iff old_string.data new_string.data).mp hin with ⟨u', v', hnew'⟩
    refine (containsSub_iff _ _).mpr ⟨u ++ u', v' ++ v, ?_⟩
    rw [hrep, huv, hnew']
    simp [List.append_assoc]

/-- C6 amended witness: the spec's scenario edit on the seeded store,
where re-running errors once `implementation` is gone. -/
theorem rerun_edit_amended_witness :
    findDoc (edit_document docs "plan.md" "implementation" "rollout").2 "plan.md" =
      some (pyReplace "The plan outlines the steps for the project's implementation."
        "implementation" "rollout") ∧
    (containsSub "implementation".data
        (pyReplace "The plan outlines the steps for the project's implementation."
          "implementation" "rollout").data = false →
      (edit_document (edit_document docs "plan.md" "implementation" "rollout").2
          "plan.md" "implementation" "rollout").1 =
        Except.error (substrNotFoundMsg "implementation" "plan.md")) ∧
    (containsSub "implementation".data "rollout".data = true →
      containsSub "implementation".data
        (pyReplace "The plan outlines the steps for the project's implementation."
          "implementation" "rollout").data = true) :=
  rerun_edit_amended docs "plan.md" "implementation" "rollout"
    "The plan outlines the steps for the project's implementation."
    (by decide) (by decide) (by decide)

end DocumentMCP
